import Mathlib

/-!
# cTORS: the order-preservation business rule

A shallow embedding of `order_preserve_rule::IsValid`
(`src/rules/combine_and_split/order_preserve_rule.cpp`) together with the
parts of the state/action interface it calls, and the properties of the rule
and of the rule engine.

The rule receives two pointers to const objects and calls const accessors
only.  The embedding is explicit state passing over a `Frame` holding the two
pointees and the two local vectors, so that what a call leaves behind can be
stated next to what it returns.
-/

namespace cTORS

/-! ## Data model -/

/-- Modelled from the spec: the class `Train` is declared outside this source
file.  A train is an identifiable vehicle with nothing relevant beyond its
identity. -/
structure Train where
  id : Nat
  deriving DecidableEq

/-- Modelled from the spec: the class `ShuntingUnit` is declared outside this
source file.  States are queried by shunting-unit identity. -/
structure ShuntingUnit where
  id : Nat
  deriving DecidableEq

/-- Modelled from the spec: the class `ShuntingUnitState` is declared outside
this source file.  It is the ordered (front-to-back) sequence of trains
coupled in one shunting unit. -/
structure ShuntingUnitState where
  trains : List Train
  deriving DecidableEq

/-- Modelled from the spec: the class `State` is declared outside this source
file.  It is a mapping from shunting-unit identity to shunting-unit state,
kept here as an association list. -/
structure State where
  shuntingUnitStates : List (ShuntingUnit × ShuntingUnitState)
  deriving DecidableEq

/-- Modelled from the spec: the parameters of a split are left open between a
split point and an explicit membership list; both encodings are kept. -/
inductive SplitParameters where
  | splitIndex (index : Nat)
  | partition (first second : List Train)
  deriving DecidableEq

/-- Modelled from the spec: the declared attachment orientation of a combine,
the first unit followed by the second or the reverse. -/
inductive Orientation where
  | append
  | reverse
  deriving DecidableEq

/-- Modelled from the spec: the class hierarchy under `Action` is declared
outside this source file.  Every variant carries the shunting unit it
targets; a split carries its parameters, a combine the two units merged, the
declared orientation and the declared merged sequence.  `OtherAction` stands
for the variants the spec leaves unnamed. -/
inductive Action where
  | MoveAction (su : ShuntingUnit)
  | SplitAction (su : ShuntingUnit) (parameters : SplitParameters)
  | CombineAction (su : ShuntingUnit) (unit1 unit2 : ShuntingUnit)
      (orientation : Orientation) (merged : List Train)
  | OtherAction (kind : Nat) (su : ShuntingUnit)
  deriving DecidableEq

/-- The C++ `pair<bool, string>` a rule returns: validity and reason. -/
abbrev Verdict := Bool × String

/-- The way a call can end without returning a verdict: the lookup of a unit
that the state does not hold. -/
inductive Fault where
  | noShuntingUnitState (su : ShuntingUnit)
  deriving DecidableEq

/-- How a call ends: it returns a value, or a fault escapes it. -/
inductive Outcome (α : Type) where
  | returned (value : α)
  | aborted (fault : Fault)
  deriving DecidableEq

/-! ## Const accessors of the state/action interface -/

/-- Modelled from the spec: `State::GetShuntingUnitState` is declared outside
this source file.  It returns a reference to the state stored for a unit, so
it has nothing to return for a unit the mapping does not hold. -/
def State.GetShuntingUnitState (state : State) (su : ShuntingUnit) :
    Option ShuntingUnitState :=
  state.shuntingUnitStates.lookup su

/-- Modelled from the spec: `Action::GetShuntingUnit` is declared outside this
source file.  It returns the shunting unit the action targets. -/
def Action.GetShuntingUnit : Action → ShuntingUnit
  | .MoveAction su => su
  | .SplitAction su _ => su
  | .CombineAction su _ _ _ _ => su
  | .OtherAction _ su => su

/-- The test `instanceof<SplitAction>(action)` on the dynamic type. -/
def instanceof_SplitAction : Action → Bool
  | .SplitAction _ _ => true
  | _ => false

/-- The test `instanceof<CombineAction>(action)` on the dynamic type. -/
def instanceof_CombineAction : Action → Bool
  | .CombineAction _ _ _ _ _ => true
  | _ => false

/-! ## Execution frame -/

/-- What a call of `IsValid` can reach: the two pointees and its two local
vectors (`none` until the declaration is executed). -/
structure Frame where
  state : State
  action : Action
  originalOrder : Option (List Train)
  newOrder : Option (List Train)
  deriving DecidableEq

/-- Computations of the rule: they run on a frame and either yield a value or
end in a fault, and in both cases leave a frame behind. -/
def Exec (α : Type) : Type := Frame → Outcome α × Frame

/-- Sequencing: a fault in the first computation skips the second. -/
instance : Monad Exec where
  pure value := fun frame => (.returned value, frame)
  bind first next := fun frame =>
    match first frame with
    | (.returned value, frame₁) => next value frame₁
    | (.aborted fault, frame₁) => (.aborted fault, frame₁)

/-- Dereference of the `action` pointer. -/
def readAction : Exec Action :=
  fun frame => (.returned frame.action, frame)

/-- The call `state->GetShuntingUnitState(su)` through the `state` pointer. -/
def callGetShuntingUnitState (su : ShuntingUnit) : Exec ShuntingUnitState :=
  fun frame =>
    match frame.state.GetShuntingUnitState su with
    | some suState => (.returned suState, frame)
    | none => (.aborted (Fault.noShuntingUnitState su), frame)

/-- The declaration `vector<const Train*> originalOrder;` (default
constructed, hence empty). -/
def declareOriginalOrder : Exec Unit :=
  fun frame => (.returned (), { frame with originalOrder := some [] })

/-- The declaration `vector<const Train*> newOrder;`. -/
def declareNewOrder : Exec Unit :=
  fun frame => (.returned (), { frame with newOrder := some [] })

/-- Evaluation of a side-effect-free condition on the current frame. -/
def evalCondition (cond : Frame → Bool) : Exec Bool :=
  fun frame => (.returned (cond frame), frame)

namespace order_preserve_rule

/-- The body of `order_preserve_rule::IsValid`.  The source leaves the
conditions of its `if () {} else if () {}` empty; they are the parameters
`cond₁` and `cond₂`, and both arms are empty as in the source. -/
def IsValidBody (cond₁ cond₂ : Frame → Bool) : Exec Verdict := do
  let action ← readAction
  if !instanceof_SplitAction action && !instanceof_CombineAction action then
    return (true, "")
  let _suState ← callGetShuntingUnitState action.GetShuntingUnit
  declareOriginalOrder
  declareNewOrder
  if ← evalCondition cond₁ then
    pure ()
  else if ← evalCondition cond₂ then
    pure ()
  -- TODO (as in the source)
  return (true, "")

/-- The call `order_preserve_rule::IsValid(state, action)`: what it returns
(or the fault it ends in) and the frame it leaves. -/
def IsValid (cond₁ cond₂ : Frame → Bool) (state : State) (action : Action) :
    Outcome Verdict × Frame :=
  IsValidBody cond₁ cond₂
    { state := state, action := action, originalOrder := none, newOrder := none }

end order_preserve_rule

/-- The rule returned a verdict whose `is_valid` component is true. -/
def Outcome.isValid : Outcome Verdict → Bool
  | .returned verdict => verdict.1
  | .aborted _ => false

/-- The rule returned `(false, reason)` with a non-empty reason. -/
def Outcome.isRejection : Outcome Verdict → Bool
  | .returned verdict => !verdict.1 && verdict.2 != ""
  | .aborted _ => false

/-! ## What the specification asks of the rule

These definitions follow the words of the specification (section 4.3), not the
source; they are what the source is compared with. -/

/-- Specification, Split step 2: the two resulting sequences implied by the
parameters of the split, applied to the original sequence. -/
def specSplitGroups (original : List Train) : SplitParameters → List Train × List Train
  | .splitIndex index => (original.take index, original.drop index)
  | .partition first second => (first, second)

/-- Specification, Split step 3: concatenating the two resulting sequences in
their produced order reconstructs exactly the original order. -/
def specSplitSatisfied (original : List Train) (parameters : SplitParameters) : Bool :=
  decide ((specSplitGroups original parameters).1 ++ (specSplitGroups original parameters).2 =
    original)

/-- Specification, Combine step 3: the merged sequence is the first unit
followed by the second, or the reverse, per the declared orientation. -/
def specCombineSatisfied (first second : List Train) (orientation : Orientation)
    (merged : List Train) : Bool :=
  match orientation with
  | .append => decide (merged = first ++ second)
  | .reverse => decide (merged = second ++ first)

/-- Specification, edge cases: one of the two groups of a split is empty. -/
def specHasEmptyGroup (groups : List Train × List Train) : Bool :=
  groups.1.isEmpty || groups.2.isEmpty

/-- Specification, edge cases: the two input groups of a combine share a
vehicle. -/
def specShareVehicle (first second : List Train) : Bool :=
  first.any fun train => second.contains train

/-- Specification, failure policy: a split index outside the bounds of the
sequence it splits. -/
def specSplitIndexOutOfBounds (original : List Train) : SplitParameters → Bool
  | .splitIndex index => decide (original.length < index)
  | .partition _ _ => false

/-! ## Rule engine -/

/-- Modelled from the spec: the rule interface is declared outside this source
file.  A rule evaluates a state and an action to a verdict; a contract
violation may abort the call. -/
abbrev Rule := State → Action → Outcome Verdict

/-- The order-preservation rule as an entry of a rule list. -/
def order_preserve_rule.rule (cond₁ cond₂ : Frame → Bool) : Rule :=
  fun state action => (order_preserve_rule.IsValid cond₁ cond₂ state action).1

/-- Modelled from the spec: the result type of the engine, which is not part
of this source file.  It holds the aggregate outcome and the positions of the
rules that were evaluated, in evaluation order (the evaluation counter). -/
structure Evaluation where
  outcome : Outcome Verdict
  evaluated : List Nat
  deriving DecidableEq

/-- Modelled from the spec: the engine is not part of this source file.
Rules are evaluated in list order starting at position `index`; the first
invalid verdict is returned at once (fail-fast, the default policy); when
every rule returns valid the aggregate is valid with empty reason. -/
def validateFrom (state : State) (action : Action) : Nat → List Rule → Evaluation
  | _, [] => { outcome := .returned (true, ""), evaluated := [] }
  | index, rule :: rest =>
    match rule state action with
    | .aborted fault => { outcome := .aborted fault, evaluated := [index] }
    | .returned verdict =>
      if verdict.1 then
        let later := validateFrom state action (index + 1) rest
        { outcome := later.outcome, evaluated := index :: later.evaluated }
      else
        { outcome := .returned verdict, evaluated := [index] }

/-- Modelled from the spec: the validation entry point
`validate(state, action, rules)` of the engine, which is not part of this
source file. -/
def validate (state : State) (action : Action) (rules : List Rule) : Evaluation :=
  validateFrom state action 0 rules

/-! ## Sample yard -/

/-- Vehicle A. -/
def trainA : Train := { id := 1 }

/-- Vehicle B. -/
def trainB : Train := { id := 2 }

/-- Vehicle C. -/
def trainC : Train := { id := 3 }

/-- Vehicle D. -/
def trainD : Train := { id := 4 }

/-- The shunting unit U (also used as U1). -/
def unitU : ShuntingUnit := { id := 10 }

/-- The shunting unit U2. -/
def unitU2 : ShuntingUnit := { id := 20 }

/-- A unit that no sample state holds. -/
def unitAbsent : ShuntingUnit := { id := 99 }

/-- A yard whose unit U holds the vehicles [A, B, C]. -/
def yardABC : State :=
  { shuntingUnitStates := [(unitU, { trains := [trainA, trainB, trainC] })] }

/-- A yard with U1 = [A, B] and U2 = [C, D]. -/
def yardTwoUnits : State :=
  { shuntingUnitStates :=
      [(unitU, { trains := [trainA, trainB] }), (unitU2, { trains := [trainC, trainD] })] }

/-- A yard whose two units both contain vehicle A. -/
def yardSharedA : State :=
  { shuntingUnitStates :=
      [(unitU, { trains := [trainA, trainB] }), (unitU2, { trains := [trainA, trainC] })] }

/-- A condition for the empty `if ()` that never holds. -/
def condNever : Frame → Bool := fun _ => false

/-- A condition for the empty `if ()` that always holds. -/
def condAlways : Frame → Bool := fun _ => true

/-- A rule that rejects every action. -/
def rejectAll : Rule := fun _ _ => .returned (false, "rejected")

/-- A rule that accepts every action. -/
def acceptAll : Rule := fun _ _ => .returned (true, "")

/-! ## The rule in closed form -/

namespace order_preserve_rule

/-- The body in closed form: the pass-through return, the fault of the lookup,
or the final return after the two declarations. -/
theorem IsValidBody_eq (cond₁ cond₂ : Frame → Bool) (frame : Frame) :
    IsValidBody cond₁ cond₂ frame =
      if (!instanceof_SplitAction frame.action &&
          !instanceof_CombineAction frame.action) = true then
        (.returned (true, ""), frame)
      else
        match frame.state.GetShuntingUnitState frame.action.GetShuntingUnit with
        | some _ =>
          (.returned (true, ""), { frame with originalOrder := some [], newOrder := some [] })
        | none => (.aborted (Fault.noShuntingUnitState frame.action.GetShuntingUnit), frame) := by
  unfold IsValidBody
  simp only [bind, pure, readAction, callGetShuntingUnitState, declareOriginalOrder,
    declareNewOrder, evalCondition]
  by_cases hgate :
      (!instanceof_SplitAction frame.action && !instanceof_CombineAction frame.action) = true
  · simp only [hgate, if_true]
  · simp only [hgate, if_false]
    cases hlookup : frame.state.GetShuntingUnitState frame.action.GetShuntingUnit with
    | none => simp [hlookup]
    | some suState =>
      cases h₁ : cond₁ { frame with originalOrder := some [], newOrder := some [] } <;>
      cases h₂ : cond₂ { frame with originalOrder := some [], newOrder := some [] } <;>
      simp [h₁, h₂, hlookup, Functor.map]

/-- An action that is neither a split nor a combine returns at the first
statement. -/
theorem IsValid_of_other (cond₁ cond₂ : Frame → Bool) (state : State) (action : Action)
    (hsplit : instanceof_SplitAction action = false)
    (hcombine : instanceof_CombineAction action = false) :
    IsValid cond₁ cond₂ state action =
      (.returned (true, ""),
        { state := state, action := action, originalOrder := none, newOrder := none }) := by
  simp [IsValid, IsValidBody_eq, hsplit, hcombine]

/-- A split or combine whose unit the state holds runs to the final return. -/
theorem IsValid_of_lookup_some (cond₁ cond₂ : Frame → Bool) (state : State) (action : Action)
    (suState : ShuntingUnitState)
    (hkind : (instanceof_SplitAction action || instanceof_CombineAction action) = true)
    (hlookup : state.GetShuntingUnitState action.GetShuntingUnit = some suState) :
    IsValid cond₁ cond₂ state action =
      (.returned (true, ""),
        { state := state, action := action, originalOrder := some [], newOrder := some [] }) := by
  have hgate : (!instanceof_SplitAction action && !instanceof_CombineAction action) = false := by
    cases hs : instanceof_SplitAction action <;> cases hc : instanceof_CombineAction action <;>
      simp_all
  simp [IsValid, IsValidBody_eq, hgate, hlookup]

/-- A split or combine whose unit the state does not hold ends in the fault of
the lookup. -/
theorem IsValid_of_lookup_none (cond₁ cond₂ : Frame → Bool) (state : State) (action : Action)
    (hkind : (instanceof_SplitAction action || instanceof_CombineAction action) = true)
    (hlookup : state.GetShuntingUnitState action.GetShuntingUnit = none) :
    IsValid cond₁ cond₂ state action =
      (.aborted (Fault.noShuntingUnitState action.GetShuntingUnit),
        { state := state, action := action, originalOrder := none, newOrder := none }) := by
  have hgate : (!instanceof_SplitAction action && !instanceof_CombineAction action) = false := by
    cases hs : instanceof_SplitAction action <;> cases hc : instanceof_CombineAction action <;>
      simp_all
  simp [IsValid, IsValidBody_eq, hgate, hlookup]

end order_preserve_rule

/-! ## The engine in closed form -/

/-- When every rule returns valid, the engine evaluates all of them and
returns valid with empty reason. -/
theorem validateFrom_all_valid (state : State) (action : Action) (rules : List Rule) :
    ∀ index : Nat,
      (∀ rule ∈ rules, ∃ reason, rule state action = .returned (true, reason)) →
      validateFrom state action index rules =
        { outcome := .returned (true, ""), evaluated := List.range' index rules.length } := by
  induction rules with
  | nil => intro index _; rfl
  | cons rule rest ih =>
    intro index hall
    obtain ⟨reason, hrule⟩ := hall rule (List.mem_cons_self rule rest)
    have hrest := ih (index + 1) fun later hmem => hall later (List.mem_cons_of_mem rule hmem)
    simp [validateFrom, hrule, hrest, List.range'_succ]

/-- The engine stops at the first rule that returns invalid. -/
theorem validateFrom_first_invalid (state : State) (action : Action) (rule : Rule)
    (after : List Rule) (verdict : Verdict) (hrule : rule state action = .returned verdict)
    (hinvalid : verdict.1 = false) (before : List Rule) :
    ∀ index : Nat,
      (∀ earlier ∈ before, ∃ reason, earlier state action = .returned (true, reason)) →
      validateFrom state action index (before ++ rule :: after) =
        { outcome := .returned verdict, evaluated := List.range' index (before.length + 1) } := by
  induction before with
  | nil =>
    intro index _
    simp [validateFrom, hrule, hinvalid]
  | cons first rest ih =>
    intro index hall
    obtain ⟨reason, hfirst⟩ := hall first (List.mem_cons_self first rest)
    have hrest := ih (index + 1) fun later hmem => hall later (List.mem_cons_of_mem first hmem)
    simp [validateFrom, hfirst, hrest, List.range'_succ]

/-! ## Properties of the rule -/

open order_preserve_rule

/-- C1. Pass-through: for every state and every action that is neither a
`SplitAction` nor a `CombineAction`, `IsValid` returns exactly `(true, "")`.
The state is not consulted: no local is declared, and the outcome is the same
in every other state, also in one that holds no entry for the unit of the
action. -/
theorem pass_through_other_actions (cond₁ cond₂ : Frame → Bool) (state : State)
    (action : Action) (hsplit : instanceof_SplitAction action = false)
    (hcombine : instanceof_CombineAction action = false) :
    (IsValid cond₁ cond₂ state action).1 = .returned (true, "") ∧
    (IsValid cond₁ cond₂ state action).2 =
      { state := state, action := action, originalOrder := none, newOrder := none } ∧
    ∀ other : State,
      (IsValid cond₁ cond₂ other action).1 = (IsValid cond₁ cond₂ state action).1 := by
  refine ⟨?_, ?_, ?_⟩
  · rw [IsValid_of_other cond₁ cond₂ state action hsplit hcombine]
  · rw [IsValid_of_other cond₁ cond₂ state action hsplit hcombine]
  · intro other
    rw [IsValid_of_other cond₁ cond₂ state action hsplit hcombine,
      IsValid_of_other cond₁ cond₂ other action hsplit hcombine]

/-- C1, witness: a move of a unit that the yard does not even hold. -/
theorem pass_through_other_actions_witness :
    instanceof_SplitAction (.MoveAction unitAbsent) = false ∧
    instanceof_CombineAction (.MoveAction unitAbsent) = false ∧
    yardABC.GetShuntingUnitState unitAbsent = none ∧
    (IsValid condAlways condNever yardABC (.MoveAction unitAbsent)).1 = .returned (true, "") :=
  ⟨rfl, rfl, by decide,
    (pass_through_other_actions condAlways condNever yardABC (.MoveAction unitAbsent) rfl rfl).1⟩

/-- C2, counterexample.  Unit U holds [A, B, C]; the split into [A, C] and [B]
does not concatenate to the original sequence, and `IsValid` still returns
`(true, "")`, not an invalid verdict with a reason: validity is not equivalent
to the concatenation reconstructing the original order. -/
theorem split_disturbed_order_accepted :
    yardABC.GetShuntingUnitState unitU = some { trains := [trainA, trainB, trainC] } ∧
    specSplitSatisfied [trainA, trainB, trainC] (.partition [trainA, trainC] [trainB]) = false ∧
    (IsValid condNever condNever yardABC
      (.SplitAction unitU (.partition [trainA, trainC] [trainB]))).1 = .returned (true, "") ∧
    ¬ ((IsValid condNever condNever yardABC
          (.SplitAction unitU (.partition [trainA, trainC] [trainB]))).1.isValid = true ↔
        specSplitSatisfied [trainA, trainB, trainC]
          (.partition [trainA, trainC] [trainB]) = true) := by
  decide

/-- C2, amended.  For every state and every split of a unit U that the state
holds, `IsValid` returns `(true, "")` whatever the parameters of the split: it
is valid whenever the concatenation of the two resulting sequences equals the
original sequence of U, and the converse is not promised. -/
theorem split_accepted_when_unit_known (cond₁ cond₂ : Frame → Bool) (state : State)
    (su : ShuntingUnit) (parameters : SplitParameters) (suState : ShuntingUnitState)
    (hlookup : state.GetShuntingUnitState su = some suState) :
    (IsValid cond₁ cond₂ state (.SplitAction su parameters)).1 = .returned (true, "") ∧
    (specSplitSatisfied suState.trains parameters = true →
      (IsValid cond₁ cond₂ state (.SplitAction su parameters)).1.isValid = true) := by
  have h := IsValid_of_lookup_some cond₁ cond₂ state (.SplitAction su parameters) suState rfl
    hlookup
  constructor
  · rw [h]
  · intro _
    rw [h]
    rfl

/-- C2, witness: splitting [A, B, C] at index 1 into [A] and [B, C]. -/
theorem split_accepted_when_unit_known_witness :
    yardABC.GetShuntingUnitState unitU = some { trains := [trainA, trainB, trainC] } ∧
    specSplitGroups [trainA, trainB, trainC] (.splitIndex 1) = ([trainA], [trainB, trainC]) ∧
    specSplitSatisfied [trainA, trainB, trainC] (.splitIndex 1) = true ∧
    (IsValid condNever condAlways yardABC (.SplitAction unitU (.splitIndex 1))).1 =
      .returned (true, "") :=
  ⟨by decide, by decide, by decide,
    (split_accepted_when_unit_known condNever condAlways yardABC unitU (.splitIndex 1)
      { trains := [trainA, trainB, trainC] } (by decide)).1⟩

/-- C3, counterexample.  With U1 = [A, B], U2 = [C, D] and the append
orientation, the declared merged sequence [A, C, B, D] is neither U1 followed
by U2 nor the reverse, and `IsValid` still returns `(true, "")`. -/
theorem combine_interleaved_accepted :
    yardTwoUnits.GetShuntingUnitState unitU = some { trains := [trainA, trainB] } ∧
    yardTwoUnits.GetShuntingUnitState unitU2 = some { trains := [trainC, trainD] } ∧
    specCombineSatisfied [trainA, trainB] [trainC, trainD] .append
      [trainA, trainC, trainB, trainD] = false ∧
    (IsValid condNever condNever yardTwoUnits
      (.CombineAction unitU unitU unitU2 .append [trainA, trainC, trainB, trainD])).1 =
        .returned (true, "") ∧
    ¬ ((IsValid condNever condNever yardTwoUnits
          (.CombineAction unitU unitU unitU2 .append
            [trainA, trainC, trainB, trainD])).1.isValid = true ↔
        specCombineSatisfied [trainA, trainB] [trainC, trainD] .append
          [trainA, trainC, trainB, trainD] = true) := by
  decide

/-- C3, amended.  For every state and every combine whose shunting unit the
state holds, `IsValid` returns `(true, "")` whatever the declared merged
sequence: it is valid whenever the merged sequence equals the sequence of U1
followed by that of U2 (or the reverse, per the declared orientation), and the
converse is not promised. -/
theorem combine_accepted_when_unit_known (cond₁ cond₂ : Frame → Bool) (state : State)
    (su unit1 unit2 : ShuntingUnit) (orientation : Orientation) (merged : List Train)
    (suState : ShuntingUnitState) (hlookup : state.GetShuntingUnitState su = some suState) :
    (IsValid cond₁ cond₂ state (.CombineAction su unit1 unit2 orientation merged)).1 =
      .returned (true, "") ∧
    ∀ first second : ShuntingUnitState,
      state.GetShuntingUnitState unit1 = some first →
      state.GetShuntingUnitState unit2 = some second →
      specCombineSatisfied first.trains second.trains orientation merged = true →
      (IsValid cond₁ cond₂ state
        (.CombineAction su unit1 unit2 orientation merged)).1.isValid = true := by
  have h := IsValid_of_lookup_some cond₁ cond₂ state
    (.CombineAction su unit1 unit2 orientation merged) suState rfl hlookup
  constructor
  · rw [h]
  · intro _ _ _ _ _
    rw [h]
    rfl

/-- C3, witness: U1 = [A, B], U2 = [C, D], append, merged [A, B, C, D]. -/
theorem combine_accepted_when_unit_known_witness :
    yardTwoUnits.GetShuntingUnitState unitU = some { trains := [trainA, trainB] } ∧
    specCombineSatisfied [trainA, trainB] [trainC, trainD] .append
      [trainA, trainB, trainC, trainD] = true ∧
    (IsValid condNever condNever yardTwoUnits
      (.CombineAction unitU unitU unitU2 .append [trainA, trainB, trainC, trainD])).1 =
        .returned (true, "") :=
  ⟨by decide, by decide,
    (combine_accepted_when_unit_known condNever condNever yardTwoUnits unitU unitU unitU2
      .append [trainA, trainB, trainC, trainD] { trains := [trainA, trainB] } (by decide)).1⟩

/-- C4, counterexample.  The split of U = [A, B, C] into the groups [] and
[A, B, C] has an empty group, and `IsValid` returns `(true, "")`: it is not
rejected, and no empty-group reason is given. -/
theorem split_empty_group_accepted :
    yardABC.GetShuntingUnitState unitU = some { trains := [trainA, trainB, trainC] } ∧
    specHasEmptyGroup (specSplitGroups [trainA, trainB, trainC]
      (.partition [] [trainA, trainB, trainC])) = true ∧
    (IsValid condNever condNever yardABC
      (.SplitAction unitU (.partition [] [trainA, trainB, trainC]))).1 = .returned (true, "") ∧
    (IsValid condNever condNever yardABC
      (.SplitAction unitU (.partition [] [trainA, trainB, trainC]))).1.isRejection = false := by
  decide

/-- C4, amended.  For every state and every split of a unit that the state
holds, one of whose two resulting groups is empty, `IsValid` returns
`(true, "")`: no empty-group check is made, and such a split is never
rejected. -/
theorem split_with_empty_group_not_rejected (cond₁ cond₂ : Frame → Bool) (state : State)
    (su : ShuntingUnit) (parameters : SplitParameters) (suState : ShuntingUnitState)
    (hlookup : state.GetShuntingUnitState su = some suState)
    (_hempty : specHasEmptyGroup (specSplitGroups suState.trains parameters) = true) :
    (IsValid cond₁ cond₂ state (.SplitAction su parameters)).1 = .returned (true, "") ∧
    (IsValid cond₁ cond₂ state (.SplitAction su parameters)).1.isRejection = false := by
  have h := IsValid_of_lookup_some cond₁ cond₂ state (.SplitAction su parameters) suState rfl
    hlookup
  constructor
  · rw [h]
  · rw [h]
    rfl

/-- C4, witness: splitting [A, B, C] at index 0, which leaves the first group
empty. -/
theorem split_with_empty_group_not_rejected_witness :
    yardABC.GetShuntingUnitState unitU = some { trains := [trainA, trainB, trainC] } ∧
    specHasEmptyGroup (specSplitGroups [trainA, trainB, trainC] (.splitIndex 0)) = true ∧
    (IsValid condAlways condAlways yardABC (.SplitAction unitU (.splitIndex 0))).1 =
      .returned (true, "") :=
  ⟨by decide, by decide,
    (split_with_empty_group_not_rejected condAlways condAlways yardABC unitU (.splitIndex 0)
      { trains := [trainA, trainB, trainC] } (by decide) (by decide)).1⟩

/-- C5, counterexample.  U1 = [A, B] and U2 = [A, C] both contain vehicle A,
and `IsValid` returns `(true, "")` for their combine, not
`(false, "duplicate vehicle across groups")`; the same holds when a unit is
combined with itself. -/
theorem combine_shared_vehicle_accepted :
    yardSharedA.GetShuntingUnitState unitU = some { trains := [trainA, trainB] } ∧
    yardSharedA.GetShuntingUnitState unitU2 = some { trains := [trainA, trainC] } ∧
    specShareVehicle [trainA, trainB] [trainA, trainC] = true ∧
    (IsValid condNever condNever yardSharedA
      (.CombineAction unitU unitU unitU2 .append [trainA, trainB, trainA, trainC])).1 =
        .returned (true, "") ∧
    (IsValid condNever condNever yardSharedA
      (.CombineAction unitU unitU unitU2 .append [trainA, trainB, trainA, trainC])).1 ≠
        .returned (false, "duplicate vehicle across groups") ∧
    specShareVehicle [trainA, trainB, trainC] [trainA, trainB, trainC] = true ∧
    (IsValid condNever condNever yardABC
      (.CombineAction unitU unitU unitU .append
        [trainA, trainB, trainC, trainA, trainB, trainC])).1 = .returned (true, "") := by
  decide

/-- C5, amended.  For every state and every combine whose shunting unit the
state holds and whose two input groups share a vehicle, `IsValid` returns
`(true, "")`: no duplicate check and no order comparison is made, and such a
combine is never rejected. -/
theorem combine_sharing_vehicle_not_rejected (cond₁ cond₂ : Frame → Bool) (state : State)
    (su unit1 unit2 : ShuntingUnit) (orientation : Orientation) (merged : List Train)
    (suState first second : ShuntingUnitState)
    (hlookup : state.GetShuntingUnitState su = some suState)
    (_hfirst : state.GetShuntingUnitState unit1 = some first)
    (_hsecond : state.GetShuntingUnitState unit2 = some second)
    (_hshare : specShareVehicle first.trains second.trains = true) :
    (IsValid cond₁ cond₂ state (.CombineAction su unit1 unit2 orientation merged)).1 =
      .returned (true, "") ∧
    (IsValid cond₁ cond₂ state
      (.CombineAction su unit1 unit2 orientation merged)).1.isRejection = false := by
  have h := IsValid_of_lookup_some cond₁ cond₂ state
    (.CombineAction su unit1 unit2 orientation merged) suState rfl hlookup
  constructor
  · rw [h]
  · rw [h]
    rfl

/-- C5, witness: the reverse-orientation combine of U1 = [A, B] with
U2 = [A, C]. -/
theorem combine_sharing_vehicle_not_rejected_witness :
    yardSharedA.GetShuntingUnitState unitU = some { trains := [trainA, trainB] } ∧
    yardSharedA.GetShuntingUnitState unitU2 = some { trains := [trainA, trainC] } ∧
    specShareVehicle [trainA, trainB] [trainA, trainC] = true ∧
    (IsValid condAlways condNever yardSharedA
      (.CombineAction unitU unitU unitU2 .reverse [trainA, trainC, trainA, trainB])).1 =
        .returned (true, "") :=
  ⟨by decide, by decide, by decide,
    (combine_sharing_vehicle_not_rejected condAlways condNever yardSharedA unitU unitU unitU2
      .reverse [trainA, trainC, trainA, trainB] { trains := [trainA, trainB] }
      { trains := [trainA, trainB] } { trains := [trainA, trainC] }
      (by decide) (by decide) (by decide) (by decide)).1⟩

/-- C6. Verdict well-formedness: every pair `(is_valid, reason)` that `IsValid`
returns has `is_valid = true` exactly when `reason` is the empty string.  The
call returns such a pair for every state and action, the one exception being a
split or combine whose unit the state does not hold, where the lookup ends the
call. -/
theorem verdict_well_formed (cond₁ cond₂ : Frame → Bool) (state : State) (action : Action) :
    (∀ verdict : Verdict, (IsValid cond₁ cond₂ state action).1 = .returned verdict →
      (verdict.1 = true ↔ verdict.2 = "")) ∧
    ((∃ verdict : Verdict, (IsValid cond₁ cond₂ state action).1 = .returned verdict) ∨
      ((instanceof_SplitAction action || instanceof_CombineAction action) = true ∧
        state.GetShuntingUnitState action.GetShuntingUnit = none ∧
        (IsValid cond₁ cond₂ state action).1 =
          .aborted (Fault.noShuntingUnitState action.GetShuntingUnit))) := by
  cases hkind : (instanceof_SplitAction action || instanceof_CombineAction action) with
  | false =>
    have hsplit : instanceof_SplitAction action = false := by
      cases hs : instanceof_SplitAction action <;> simp_all
    have hcombine : instanceof_CombineAction action = false := by
      cases hc : instanceof_CombineAction action <;> simp_all
    rw [IsValid_of_other cond₁ cond₂ state action hsplit hcombine]
    refine ⟨?_, Or.inl ⟨(true, ""), rfl⟩⟩
    intro verdict hreturned
    cases hreturned
    simp
  | true =>
    cases hlookup : state.GetShuntingUnitState action.GetShuntingUnit with
    | none =>
      rw [IsValid_of_lookup_none cond₁ cond₂ state action hkind hlookup]
      refine ⟨?_, Or.inr ⟨rfl, rfl, rfl⟩⟩
      intro verdict hreturned
      cases hreturned
    | some suState =>
      rw [IsValid_of_lookup_some cond₁ cond₂ state action suState hkind hlookup]
      refine ⟨?_, Or.inl ⟨(true, ""), rfl⟩⟩
      intro verdict hreturned
      cases hreturned
      simp

/-- C6, witness: the verdict returned for the split of [A, B, C] at index 1. -/
theorem verdict_well_formed_witness :
    (IsValid condNever condNever yardABC (.SplitAction unitU (.splitIndex 1))).1 =
      .returned (true, "") ∧
    (((true, "") : Verdict).1 = true ↔ ((true, "") : Verdict).2 = "") :=
  ⟨by decide,
    (verdict_well_formed condNever condNever yardABC (.SplitAction unitU (.splitIndex 1))).1
      (true, "") (by decide)⟩

/-- C7, counterexample.  The split index 5 is outside the bounds of
U = [A, B, C]; `IsValid` terminates normally, but with `(true, "")`, not with
`(false, reason)` for a non-empty reason. -/
theorem split_index_out_of_bounds_accepted :
    yardABC.GetShuntingUnitState unitU = some { trains := [trainA, trainB, trainC] } ∧
    specSplitIndexOutOfBounds [trainA, trainB, trainC] (.splitIndex 5) = true ∧
    (IsValid condNever condNever yardABC (.SplitAction unitU (.splitIndex 5))).1 =
      .returned (true, "") ∧
    (IsValid condNever condNever yardABC
      (.SplitAction unitU (.splitIndex 5))).1.isRejection = false := by
  decide

/-- C7, amended.  For every state and every split or combine whose shunting
unit the state holds, malformed parameters included, `IsValid` terminates
normally and returns a verdict, which is `(true, "")`: the parameters are not
inspected, so no value of them makes the call abort, and none is rejected. -/
theorem split_or_combine_returns_when_unit_known (cond₁ cond₂ : Frame → Bool) (state : State)
    (action : Action) (suState : ShuntingUnitState)
    (hkind : (instanceof_SplitAction action || instanceof_CombineAction action) = true)
    (hlookup : state.GetShuntingUnitState action.GetShuntingUnit = some suState) :
    (IsValid cond₁ cond₂ state action).1 = .returned (true, "") ∧
    (∀ fault : Fault, (IsValid cond₁ cond₂ state action).1 ≠ .aborted fault) ∧
    (IsValid cond₁ cond₂ state action).1.isRejection = false := by
  rw [IsValid_of_lookup_some cond₁ cond₂ state action suState hkind hlookup]
  refine ⟨rfl, ?_, rfl⟩
  intro fault hfault
  cases hfault

/-- C7, witness: the split of U = [A, B, C] at the out-of-bounds index 7. -/
theorem split_or_combine_returns_when_unit_known_witness :
    (instanceof_SplitAction (.SplitAction unitU (.splitIndex 7)) ||
      instanceof_CombineAction (.SplitAction unitU (.splitIndex 7))) = true ∧
    yardABC.GetShuntingUnitState (Action.SplitAction unitU (.splitIndex 7)).GetShuntingUnit =
      some { trains := [trainA, trainB, trainC] } ∧
    specSplitIndexOutOfBounds [trainA, trainB, trainC] (.splitIndex 7) = true ∧
    (IsValid condAlways condAlways yardABC (.SplitAction unitU (.splitIndex 7))).1 =
      .returned (true, "") :=
  ⟨by decide, by decide, by decide,
    (split_or_combine_returns_when_unit_known condAlways condAlways yardABC
      (.SplitAction unitU (.splitIndex 7)) { trains := [trainA, trainB, trainC] }
      (by decide) (by decide)).1⟩

/-- The outcome of a call in terms of what the rule reads: the two type tests,
the unit of the action, and the entry of the state for that unit. -/
theorem IsValid_outcome_eq (cond₁ cond₂ : Frame → Bool) (state : State) (action : Action) :
    (IsValid cond₁ cond₂ state action).1 =
      if (!instanceof_SplitAction action && !instanceof_CombineAction action) = true then
        .returned (true, "")
      else
        match state.GetShuntingUnitState action.GetShuntingUnit with
        | some _ => .returned (true, "")
        | none => .aborted (Fault.noShuntingUnitState action.GetShuntingUnit) := by
  simp only [IsValid, IsValidBody_eq]
  split
  · rfl
  · split <;> rfl

/-- The rule leaves the state and the action of the frame as it found them. -/
theorem IsValid_frame (cond₁ cond₂ : Frame → Bool) (state : State) (action : Action) :
    (IsValid cond₁ cond₂ state action).2.state = state ∧
    (IsValid cond₁ cond₂ state action).2.action = action := by
  simp only [IsValid, IsValidBody_eq]
  split
  · exact ⟨rfl, rfl⟩
  · split <;> exact ⟨rfl, rfl⟩

/-- C8. Purity: a call of `IsValid` leaves the state and the action unchanged;
two evaluations on equal state and equal action give equal results; the
outcome depends on the state only through `GetShuntingUnitState` at the unit
of the action, and on the action only through its dynamic type and
`GetShuntingUnit`. -/
theorem IsValid_pure (cond₁ cond₂ : Frame → Bool) (state : State) (action : Action) :
    (IsValid cond₁ cond₂ state action).2.state = state ∧
    (IsValid cond₁ cond₂ state action).2.action = action ∧
    (∀ (state₂ : State) (action₂ : Action), state₂ = state → action₂ = action →
      IsValid cond₁ cond₂ state₂ action₂ = IsValid cond₁ cond₂ state action) ∧
    (∀ state₂ : State,
      state₂.GetShuntingUnitState action.GetShuntingUnit =
        state.GetShuntingUnitState action.GetShuntingUnit →
      (IsValid cond₁ cond₂ state₂ action).1 = (IsValid cond₁ cond₂ state action).1) ∧
    (∀ action₂ : Action,
      instanceof_SplitAction action₂ = instanceof_SplitAction action →
      instanceof_CombineAction action₂ = instanceof_CombineAction action →
      action₂.GetShuntingUnit = action.GetShuntingUnit →
      (IsValid cond₁ cond₂ state action₂).1 = (IsValid cond₁ cond₂ state action).1) := by
  refine ⟨(IsValid_frame cond₁ cond₂ state action).1,
    (IsValid_frame cond₁ cond₂ state action).2, ?_, ?_, ?_⟩
  · intro state₂ action₂ hstate haction
    rw [hstate, haction]
  · intro state₂ hsame
    rw [IsValid_outcome_eq, IsValid_outcome_eq, hsame]
  · intro action₂ hsplit hcombine hunit
    rw [IsValid_outcome_eq, IsValid_outcome_eq, hsplit, hcombine, hunit]

/-- C8, witness: the split of [A, B, C] into [A, C] and [B] leaves the yard
and the action as they were, and a split of the same unit with other
parameters has the same outcome. -/
theorem IsValid_pure_witness :
    (IsValid condNever condAlways yardABC
      (.SplitAction unitU (.partition [trainA, trainC] [trainB]))).2.state = yardABC ∧
    (IsValid condNever condAlways yardABC
      (.SplitAction unitU (.partition [trainA, trainC] [trainB]))).2.action =
        .SplitAction unitU (.partition [trainA, trainC] [trainB]) ∧
    (IsValid condNever condAlways yardABC (.SplitAction unitU (.splitIndex 1))).1 =
      (IsValid condNever condAlways yardABC
        (.SplitAction unitU (.partition [trainA, trainC] [trainB]))).1 :=
  ⟨(IsValid_pure condNever condAlways yardABC
      (.SplitAction unitU (.partition [trainA, trainC] [trainB]))).1,
    (IsValid_pure condNever condAlways yardABC
      (.SplitAction unitU (.partition [trainA, trainC] [trainB]))).2.1,
    (IsValid_pure condNever condAlways yardABC
      (.SplitAction unitU (.partition [trainA, trainC] [trainB]))).2.2.2.2
      (.SplitAction unitU (.splitIndex 1)) rfl rfl rfl⟩

/-- C9. Engine fail-fast: `validate` returns the verdict of the first rule, in
list order, that returns invalid, and evaluates exactly the rules up to and
including it; when every rule returns valid the aggregate verdict is
`(true, "")`; in particular, of two rules the first of which returns invalid,
only the first is evaluated and its verdict is the aggregate. -/
theorem validate_fail_fast (state : State) (action : Action) :
    (∀ (before : List Rule) (rule : Rule) (after : List Rule) (verdict : Verdict),
      (∀ earlier ∈ before, ∃ reason, earlier state action = .returned (true, reason)) →
      rule state action = .returned verdict → verdict.1 = false →
      validate state action (before ++ rule :: after) =
        { outcome := .returned verdict, evaluated := List.range (before.length + 1) }) ∧
    (∀ rules : List Rule,
      (∀ rule ∈ rules, ∃ reason, rule state action = .returned (true, reason)) →
      validate state action rules =
        { outcome := .returned (true, ""), evaluated := List.range rules.length }) ∧
    (∀ (first second : Rule) (verdict : Verdict),
      first state action = .returned verdict → verdict.1 = false →
      validate state action [first, second] =
        { outcome := .returned verdict, evaluated := [0] }) := by
  refine ⟨?_, ?_, ?_⟩
  · intro before rule after verdict hbefore hrule hinvalid
    rw [validate, validateFrom_first_invalid state action rule after verdict hrule hinvalid
      before 0 hbefore, List.range_eq_range']
  · intro rules hall
    rw [validate, validateFrom_all_valid state action rules 0 hall, List.range_eq_range']
  · intro first second verdict hfirst hinvalid
    have h := validateFrom_first_invalid state action first [second] verdict hfirst hinvalid
      [] 0 (fun earlier hmem => absurd hmem (List.not_mem_nil earlier))
    simpa [validate] using h

/-- C9, witness: a rejecting rule ahead of the order-preservation rule is the
only one evaluated; behind it, it is reached and decides; the
order-preservation rule alone accepts. -/
theorem validate_fail_fast_witness :
    validate yardABC (.SplitAction unitU (.splitIndex 1))
        [rejectAll, order_preserve_rule.rule condNever condNever] =
      { outcome := .returned (false, "rejected"), evaluated := [0] } ∧
    validate yardABC (.SplitAction unitU (.splitIndex 1))
        ([order_preserve_rule.rule condNever condNever] ++ rejectAll :: [acceptAll]) =
      { outcome := .returned (false, "rejected"), evaluated := List.range 2 } ∧
    validate yardABC (.SplitAction unitU (.splitIndex 1))
        [order_preserve_rule.rule condNever condNever, acceptAll] =
      { outcome := .returned (true, ""), evaluated := List.range 2 } :=
  ⟨(validate_fail_fast yardABC (.SplitAction unitU (.splitIndex 1))).2.2 rejectAll
      (order_preserve_rule.rule condNever condNever) (false, "rejected") rfl rfl,
    (validate_fail_fast yardABC (.SplitAction unitU (.splitIndex 1))).1
      [order_preserve_rule.rule condNever condNever] rejectAll [acceptAll] (false, "rejected")
      (by
        intro earlier hmem
        rw [List.mem_singleton] at hmem
        subst hmem
        exact ⟨"", by decide⟩)
      rfl rfl,
    (validate_fail_fast yardABC (.SplitAction unitU (.splitIndex 1))).2.1
      [order_preserve_rule.rule condNever condNever, acceptAll]
      (by
        intro rule hmem
        simp only [List.mem_cons, List.mem_singleton, List.not_mem_nil, or_false] at hmem
        rcases hmem with h | h <;> subst h <;> exact ⟨"", by decide⟩)⟩

/-- C10. The rule as written never rejects: for every state and every action
for which the lookup of the unit, where one is made, succeeds, `IsValid`
returns `(true, "")`; the vectors `originalOrder` and `newOrder` are empty
when it returns; and the verdict is the same in every other state that holds
the unit, whatever the vehicle order there, and whatever conditions stand in
the two empty `if`s. -/
theorem never_rejects (cond₁ cond₂ : Frame → Bool) (state : State) (action : Action)
    (hlookup : (instanceof_SplitAction action || instanceof_CombineAction action) = true →
      (state.GetShuntingUnitState action.GetShuntingUnit).isSome = true) :
    (IsValid cond₁ cond₂ state action).1 = .returned (true, "") ∧
    (IsValid cond₁ cond₂ state action).2.originalOrder.getD [] = [] ∧
    (IsValid cond₁ cond₂ state action).2.newOrder.getD [] = [] ∧
    (∀ other : State,
      (state.GetShuntingUnitState action.GetShuntingUnit).isSome =
        (other.GetShuntingUnitState action.GetShuntingUnit).isSome →
      (IsValid cond₁ cond₂ other action).1 = (IsValid cond₁ cond₂ state action).1) ∧
    (∀ other₁ other₂ : Frame → Bool,
      IsValid other₁ other₂ state action = IsValid cond₁ cond₂ state action) := by
  have hcond : ∀ other₁ other₂ : Frame → Bool,
      IsValid other₁ other₂ state action = IsValid cond₁ cond₂ state action := by
    intro other₁ other₂
    simp only [IsValid, IsValidBody_eq]
  cases hkind : (instanceof_SplitAction action || instanceof_CombineAction action) with
  | false =>
    have hsplit : instanceof_SplitAction action = false := by
      cases hs : instanceof_SplitAction action <;> simp_all
    have hcombine : instanceof_CombineAction action = false := by
      cases hc : instanceof_CombineAction action <;> simp_all
    refine ⟨?_, ?_, ?_, ?_, hcond⟩
    · rw [IsValid_of_other cond₁ cond₂ state action hsplit hcombine]
    · rw [IsValid_of_other cond₁ cond₂ state action hsplit hcombine]
      rfl
    · rw [IsValid_of_other cond₁ cond₂ state action hsplit hcombine]
      rfl
    · intro other _
      rw [IsValid_of_other cond₁ cond₂ state action hsplit hcombine,
        IsValid_of_other cond₁ cond₂ other action hsplit hcombine]
  | true =>
    obtain ⟨suState, hsome⟩ := Option.isSome_iff_exists.mp (hlookup hkind)
    refine ⟨?_, ?_, ?_, ?_, hcond⟩
    · rw [IsValid_of_lookup_some cond₁ cond₂ state action suState hkind hsome]
    · rw [IsValid_of_lookup_some cond₁ cond₂ state action suState hkind hsome]
      rfl
    · rw [IsValid_of_lookup_some cond₁ cond₂ state action suState hkind hsome]
      rfl
    · intro other hother
      rw [hlookup hkind] at hother
      obtain ⟨otherState, hotherSome⟩ := Option.isSome_iff_exists.mp hother.symm
      rw [IsValid_of_lookup_some cond₁ cond₂ state action suState hkind hsome,
        IsValid_of_lookup_some cond₁ cond₂ other action otherState hkind hotherSome]

/-- C10, witness: the interleaving combine [A, C, B, D] of U1 = [A, B] and
U2 = [C, D] is accepted with both local vectors empty. -/
theorem never_rejects_witness :
    ((instanceof_SplitAction
          (.CombineAction unitU unitU unitU2 .append [trainA, trainC, trainB, trainD]) ||
        instanceof_CombineAction
          (.CombineAction unitU unitU unitU2 .append [trainA, trainC, trainB, trainD])) = true →
      (yardTwoUnits.GetShuntingUnitState
        (Action.CombineAction unitU unitU unitU2 .append
          [trainA, trainC, trainB, trainD]).GetShuntingUnit).isSome = true) ∧
    (IsValid condAlways condNever yardTwoUnits
      (.CombineAction unitU unitU unitU2 .append [trainA, trainC, trainB, trainD])).1 =
        .returned (true, "") ∧
    (IsValid condAlways condNever yardTwoUnits
      (.CombineAction unitU unitU unitU2 .append [trainA, trainC, trainB, trainD])).2 =
        { state := yardTwoUnits,
          action := .CombineAction unitU unitU unitU2 .append [trainA, trainC, trainB, trainD],
          originalOrder := some [], newOrder := some [] } :=
  ⟨fun _ => by decide,
    (never_rejects condAlways condNever yardTwoUnits
      (.CombineAction unitU unitU unitU2 .append [trainA, trainC, trainB, trainD])
      (fun _ => by decide)).1,
    by decide⟩

end cTORS
